import Mathlib

/-!
Shallow embedding of the conversational turn handling of the
servicenow_connector_agnet repository.

The embedded code:
* `src/app.py`, `stream_agent_response` (lines 202-248): classifies runner
  events into tool-call / tool-response / text parts and yields formatted
  stream items;
* `src/app.py`, the module-level chat handler (lines 294-315): accumulates
  tool activity, picks up the final text and substitutes the fallback notice
  when no final text was produced;
* `src/deploy.py`, `DeployableADKAgent.query` (lines 38-59);
* `src/local_runner.py`, `process_agent_response` (lines 56-66) and
  `start_interactive_chat` (lines 69-87).

Python values produced by `json.loads` are modelled by the inductive `Json`
(numbers as `Int`; the float/int distinction and string escaping inside
`json.dumps`/`repr` are irrelevant to every property considered here).
`json.loads` applied to the opaque `fn_response.response` value and `str` of
that same value are library functions of an opaque input, so a tool-response
payload is modelled by the pair of their outcomes: the optional parse result
(`none` models `json.JSONDecodeError`/`TypeError`) and the literal `str` form.
-/

/-- A parsed JSON-like Python value as produced by `json.loads`. -/
inductive Json where
  | null : Json
  | bool (b : Bool) : Json
  | num (n : Int) : Json
  | str (s : String) : Json
  | arr (elems : List Json) : Json
  | obj (fields : List (String × Json)) : Json

/-- Python truthiness of a `json.loads` result: `None`, `False`, `0`, the
empty string, the empty list and the empty dict are falsy; everything else is
truthy.  This is what the `if v` guard in `stream_agent_response` tests. -/
def Json.truthy : Json → Bool
  | .null => false
  | .bool b => b
  | .num n => n != 0
  | .str s => s != ""
  | .arr elems => !elems.isEmpty
  | .obj fields => !fields.isEmpty

mutual
/-- Python `repr` of a `json.loads` result (string escaping elided). -/
def pyRepr : Json → String
  | .null => "None"
  | .bool true => "True"
  | .bool false => "False"
  | .num n => toString n
  | .str s => "\x27" ++ s ++ "\x27"
  | .arr elems => "[" ++ String.intercalate ", " (pyReprElems elems) ++ "]"
  | .obj fields => "\x7b" ++ String.intercalate ", " (pyReprFields fields) ++ "\x7d"

/-- `repr` of each element of a Python list. -/
def pyReprElems : List Json → List String
  | [] => []
  | x :: xs => pyRepr x :: pyReprElems xs

/-- `repr` of each `key: value` entry of a Python dict. -/
def pyReprFields : List (String × Json) → List String
  | [] => []
  | (k, v) :: fs => ("\x27" ++ k ++ "\x27: " ++ pyRepr v) :: pyReprFields fs
end

/-- Python `str` of a `json.loads` result: the string itself for strings,
`repr` for everything else. -/
def pyStr : Json → String
  | .str s => s
  | j => pyRepr j

/-- Indentation prefix used by `json.dumps(..., indent=2)` at nesting depth
`n`. -/
def jsonIndent (n : Nat) : String :=
  String.join (List.replicate n "  ")

mutual
/-- `json.dumps(v, indent=2)` rendered at nesting depth `lvl` (string escaping
elided). -/
def dumpsAt : Json → Nat → String
  | .null, _ => "null"
  | .bool true, _ => "true"
  | .bool false, _ => "false"
  | .num n, _ => toString n
  | .str s, _ => "\"" ++ s ++ "\""
  | .arr [], _ => "[]"
  | .arr (x :: xs), lvl =>
      "[\n" ++ String.intercalate ",\n" (dumpsElems (x :: xs) (lvl + 1)) ++
        "\n" ++ jsonIndent lvl ++ "]"
  | .obj [], _ => "\x7b\x7d"
  | .obj (f :: fs), lvl =>
      "\x7b\n" ++ String.intercalate ",\n" (dumpsFields (f :: fs) (lvl + 1)) ++
        "\n" ++ jsonIndent lvl ++ "\x7d"

/-- The indented lines of a dumped JSON array. -/
def dumpsElems : List Json → Nat → List String
  | [], _ => []
  | x :: xs, lvl => (jsonIndent lvl ++ dumpsAt x lvl) :: dumpsElems xs lvl

/-- The indented lines of a dumped JSON object. -/
def dumpsFields : List (String × Json) → Nat → List String
  | [], _ => []
  | (k, v) :: fs, lvl =>
      (jsonIndent lvl ++ "\"" ++ k ++ "\": " ++ dumpsAt v lvl) :: dumpsFields fs lvl
end

/-- `json.dumps(v, indent=2)`. -/
def dumps (j : Json) : String := dumpsAt j 0

/-- A `function_call` part payload: tool name and the ordered argument
mapping (`dict(fn_call.args)` preserves insertion order). -/
structure FnCall where
  name : String
  args : List (String × Json)

/-- A `function_response` part payload.  `responseParse` is the outcome of
`json.loads(fn_response.response)` (`none` when that raises
`json.JSONDecodeError` or `TypeError`); `responseStr` is
`str(fn_response.response)`. -/
structure FnResponse where
  name : String
  responseParse : Option Json
  responseStr : String

/-- One part of an event's content (named `ContentPart` here because Lean's
library already owns the name `Part`).  `getattr(part, "function_call", None)`
and the two sibling probes are modelled by `Option` fields; a present
`function_call`/`function_response` object is always truthy in Python, while
a present `text` is truthy only when non-empty. -/
structure ContentPart where
  function_call : Option FnCall
  function_response : Option FnResponse
  text : Option String

/-- An event's content: its list of parts. -/
structure Content where
  parts : List ContentPart

/-- A runner event; `content` may be absent (`if not event.content:
continue`). -/
structure Event where
  content : Option Content

/-- One yielded item of `stream_agent_response`: the Python generator yields
dicts with a `type` field and a `content` field, both strings. -/
structure StreamEvent where
  type : String
  content : String
deriving Repr, DecidableEq

/-- The content string yielded for a `function_call` part (`app.py` lines
217-221). -/
def toolCallContent (fc : FnCall) : String :=
  "<div class='tool-card'><div class='title'>🛠️ Tool Call</div><code>" ++
    fc.name ++ "</code>\n\n```json\n" ++ dumps (Json.obj fc.args) ++ "\n```</div>"

/-- The one-line summary of one item of a list-shaped tool response
(`app.py` lines 229-232): for a dict, the truthy `field: value` pairs joined
by commas; for anything else, Python `str` of the item. -/
def itemSummary : Json → String
  | .obj fields =>
      String.intercalate ", "
        ((fields.filter (fun kv => kv.2.truthy)).map
          (fun kv => "`" ++ kv.1 ++ "`: " ++ pyStr kv.2))
  | item => pyStr item

/-- The `list_lines` accumulated by the `for item in response_data` loop
(`app.py` lines 227-233): one `- `-prefixed summary per item. -/
def buildListLines : List Json → List String
  | [] => []
  | item :: rest => ("- " ++ itemSummary item) :: buildListLines rest

/-- The `response_str` computed for a `function_response` part (`app.py`
lines 223-238): a bullet list for a parsed non-empty list, a fenced
`json.dumps` block for any other parsed value, and `str(response)` when the
payload does not parse. -/
def renderResponseStr (fr : FnResponse) : String :=
  match fr.responseParse with
  | some response_data =>
      match response_data with
      | .arr (x :: xs) => String.intercalate "\n" (buildListLines (x :: xs))
      | _ => "```json\n" ++ dumps response_data ++ "\n```"
  | none => fr.responseStr

/-- The content string yielded for a `function_response` part (`app.py`
lines 239-242). -/
def toolResponseContent (fr : FnResponse) : String :=
  "<div class='tool-card'><div class='title'>📩 Tool Response from <code>" ++
    fr.name ++ "</code></div>" ++ renderResponseStr fr ++ "</div>"

/-- The inner `for part in event.content.parts` loop of
`stream_agent_response` (`app.py` lines 215-244): returns the items yielded
for these parts together with the updated `final_response_parts`
accumulator.  The three `getattr` probes are tried in order
`function_call`, `function_response`, `text`; a falsy probe result (absent
attribute, or empty `text`) falls through to the next branch. -/
def streamParts : List ContentPart → List String → List StreamEvent × List String
  | [], acc => ([], acc)
  | part :: rest, acc =>
      match part.function_call with
      | some fn_call =>
          let (ys, acc') := streamParts rest acc
          (⟨"tool_call", toolCallContent fn_call⟩ :: ys, acc')
      | none =>
          match part.function_response with
          | some fn_response =>
              let (ys, acc') := streamParts rest acc
              (⟨"tool_response", toolResponseContent fn_response⟩ :: ys, acc')
          | none =>
              match part.text with
              | some t =>
                  if t = "" then streamParts rest acc
                  else streamParts rest (acc ++ [t])
              | none => streamParts rest acc

/-- The outer `for event in events` loop of `stream_agent_response`
(`app.py` lines 212-244): events without content are skipped. -/
def streamEvents : List Event → List String → List StreamEvent × List String
  | [], acc => ([], acc)
  | event :: rest, acc =>
      match event.content with
      | none => streamEvents rest acc
      | some content =>
          let (ys, acc') := streamParts content.parts acc
          let (zs, acc'') := streamEvents rest acc'
          (ys ++ zs, acc'')

/-- `stream_agent_response` (`app.py` lines 202-248) as a function from the
runner's event list to the list of yielded items: tool items in arrival
order, then one `final_text` item holding `"".join(final_response_parts)`
when at least one text part was accumulated. -/
def stream_agent_response (events : List Event) : List StreamEvent :=
  let (ys, final_response_parts) := streamEvents events []
  if final_response_parts.isEmpty then ys
  else ys ++ [⟨"final_text", String.join final_response_parts⟩]

/-- The fallback notice the chat handler substitutes when the turn produced
no final text (`app.py` lines 307-311). -/
def fallback_notice : String :=
  "I processed the request using my tools, but I don't have a final text response to share yet."

/-- What one turn of the chat handler keeps: the accumulated
`tool_activity_md` list and the `final_response` string shown to the user. -/
structure RenderedActivity where
  tool_activity : List String
  final_text : String
deriving Repr, DecidableEq

/-- The body of the `for event in stream_agent_response(...)` loop of the
chat handler (`app.py` lines 295-304), acting on the pair
`(tool_activity_md, final_response)`: `tool_call`/`tool_response` content is
appended to `tool_activity_md`; `final_text` content replaces
`final_response`. -/
def handle_turn_step (st : List String × String) (ev : StreamEvent) :
    List String × String :=
  if ["tool_call", "tool_response"].contains ev.type then
    (st.1 ++ [ev.content], st.2)
  else if ev.type = "final_text" then (st.1, ev.content)
  else st

/-- The module-level chat handler of `app.py` (lines 294-315): dispatches
each streamed item through `handle_turn_step`, then substitutes
`fallback_notice` when `final_response` is still empty (`if not
final_response`). -/
def handle_turn (events : List Event) : RenderedActivity :=
  let (tool_activity_md, final_response) :=
    (stream_agent_response events).foldl handle_turn_step ([], "")
  if final_response = "" then ⟨tool_activity_md, fallback_notice⟩
  else ⟨tool_activity_md, final_response⟩

/-- The outcome of one call into the external runner, as observed by the
callers in `deploy.py` and `local_runner.py`: either the finite list of
events the iteration produced, or the message of the exception the runner
raised before or during event production. -/
inductive TurnOutcome where
  | ok (events : List Event)
  | failure (msg : String)

/-- The dict returned by `DeployableADKAgent.query`: either
`{"response": ...}` or `{"error": ...}`. -/
inductive QueryResult where
  | response (text : String)
  | error (msg : String)
deriving Repr, DecidableEq

/-- The `response_parts` list comprehension of `DeployableADKAgent.query`
(`deploy.py` lines 48-54) and of `process_agent_response`
(`local_runner.py` lines 59-65): the truthy `text` attributes of all parts
of all events with content, in order. -/
def collectTextParts (events : List Event) : List String :=
  (events.filterMap Event.content).flatMap
    (fun content => content.parts.filterMap
      (fun part =>
        match part.text with
        | some t => if t = "" then none else some t
        | none => none))

/-- `DeployableADKAgent.query` (`deploy.py` lines 38-59).  The empty-prompt
guard is `if not prompt`, so only the exactly-empty string is rejected; the
runner call and the iteration over its events sit inside `try`, and any
exception is returned as `{"error": str(e)}`. -/
def DeployableADKAgent.query (outcome : TurnOutcome) (text : String) : QueryResult :=
  if text = "" then .error "Input 'text' cannot be empty."
  else
    match outcome with
    | .ok events =>
        let joined := String.intercalate "\n" (collectTextParts events)
        .response (if joined = "" then "No text response received." else joined)
    | .failure msg => .error msg

/-- `process_agent_response` (`local_runner.py` lines 56-66): joins the
truthy text parts with newlines, with a default when the join is falsy. -/
def process_agent_response (events : List Event) : String :=
  let joined := String.intercalate "\n" (collectTextParts events)
  if joined = "" then "No text response received." else joined

/-- The `"-" * 50` separator printed after each agent response. -/
def dashes50 : String := String.join (List.replicate 50 "-")

/-- Python `str.strip()` with no argument: whitespace removed from both
ends (modelled over the character list of the string). -/
def pyStrip (s : String) : String :=
  ⟨((s.data.dropWhile Char.isWhitespace).reverse.dropWhile Char.isWhitespace).reverse⟩

/-- Python `str.lower()` (ASCII case mapping suffices for the quit-command
comparison this loop makes). -/
def pyLower (s : String) : String :=
  ⟨s.data.map Char.toLower⟩

/-- `start_interactive_chat` (`local_runner.py` lines 69-87) modelled on a
finite list of console inputs, each paired with the outcome the runner would
produce for it: returns the list of lines printed inside the loop.  The quit
check runs on the stripped, lowercased input before the empty-input check;
an empty stripped input issues no turn; a runner exception is caught by the
`except` arm, printed with the original message, and the loop continues. -/
def start_interactive_chat : List (String × TurnOutcome) → List String
  | [] => []
  | (raw, outcome) :: rest =>
      let user_input := pyStrip raw
      if ["quit", "exit", "q"].contains (pyLower user_input) then
        ["\n👋 Thanks for using the local runner. Goodbye!"]
      else if user_input = "" then start_interactive_chat rest
      else
        match outcome with
        | .ok events =>
            ("\nAgent: " ++ process_agent_response events ++ "\n" ++ dashes50) ::
              start_interactive_chat rest
        | .failure msg =>
            ("\nAn error occurred: " ++ msg) :: start_interactive_chat rest

/-!
### Spec-side vocabulary

The specification's data model (§3) describes an `Event` as a tagged union:
`ToolCall`, `ToolResponse` or `TextChunk`, exactly one shape per event.
`SpecEvent` is that union, written from the spec's words; `SpecEvent.toEvent`
realises each shape as the runner event the code would receive for it.  The
statements of the sequence-level claims quantify over `List SpecEvent` and
evaluate the embedded code on its image under `eventsOf`.
-/

/-- The spec's tagged-union event (§3 of the spec). -/
inductive SpecEvent where
  | toolCall (name : String) (args : List (String × Json)) : SpecEvent
  | toolResponse (name : String) (parse : Option Json) (literal : String) : SpecEvent
  | textChunk (text : String) : SpecEvent

/-- The runner event carrying exactly the one shape of a spec event. -/
def SpecEvent.toEvent : SpecEvent → Event
  | .toolCall name args => ⟨some ⟨[⟨some ⟨name, args⟩, none, none⟩]⟩⟩
  | .toolResponse name parse literal => ⟨some ⟨[⟨none, some ⟨name, parse, literal⟩, none⟩]⟩⟩
  | .textChunk text => ⟨some ⟨[⟨none, none, some text⟩]⟩⟩

/-- A spec event sequence as the runner event list the code consumes. -/
def eventsOf (ses : List SpecEvent) : List Event :=
  ses.map SpecEvent.toEvent

/-- The texts of all TextChunk events of a spec sequence, in arrival order. -/
def specTexts : List SpecEvent → List String :=
  List.filterMap fun se =>
    match se with
    | .textChunk t => some t
    | _ => none

/-- Whether a spec event is a ToolCall. -/
def SpecEvent.isToolCall : SpecEvent → Bool
  | .toolCall .. => true
  | _ => false

/-- Whether a spec event is a ToolResponse. -/
def SpecEvent.isToolResponse : SpecEvent → Bool
  | .toolResponse .. => true
  | _ => false

/-- The formatted tool-activity entry the renderer owes a spec event: one
entry per ToolCall or ToolResponse, none for a TextChunk. -/
def specToolEntry : SpecEvent → Option String
  | .toolCall name args => some (toolCallContent ⟨name, args⟩)
  | .toolResponse name parse literal => some (toolResponseContent ⟨name, parse, literal⟩)
  | .textChunk _ => none

/-- Whether a parsed payload is a non-empty JSON array (the shape that
selects the bullet-rendering path). -/
def Json.isNonemptyList : Json → Bool
  | .arr (_ :: _) => true
  | _ => false

/-- Whether a parsed payload is a JSON object (a record). -/
def Json.isObj : Json → Bool
  | .obj _ => true
  | _ => false

/-!
### Decompositions of the streaming loop

`streamParts`/`streamEvents` thread the `final_response_parts` accumulator
through the loop.  The two projections below name what the loop yields and
what it appends to the accumulator, so that the theorems can speak about
them separately.
-/

/-- The items the inner part loop yields, in order. -/
def partYields : List ContentPart → List StreamEvent
  | [] => []
  | part :: rest =>
      match part.function_call with
      | some fn_call => ⟨"tool_call", toolCallContent fn_call⟩ :: partYields rest
      | none =>
          match part.function_response with
          | some fn_response => ⟨"tool_response", toolResponseContent fn_response⟩ :: partYields rest
          | none => partYields rest

/-- The texts the inner part loop appends to `final_response_parts`. -/
def partTexts : List ContentPart → List String
  | [] => []
  | part :: rest =>
      match part.function_call with
      | some _ => partTexts rest
      | none =>
          match part.function_response with
          | some _ => partTexts rest
          | none =>
              match part.text with
              | some t => if t = "" then partTexts rest else t :: partTexts rest
              | none => partTexts rest

/-- The items the outer event loop yields, in order. -/
def eventYields : List Event → List StreamEvent
  | [] => []
  | event :: rest =>
      match event.content with
      | none => eventYields rest
      | some content => partYields content.parts ++ eventYields rest

/-- The texts the outer event loop appends to `final_response_parts`. -/
def eventTexts : List Event → List String
  | [] => []
  | event :: rest =>
      match event.content with
      | none => eventTexts rest
      | some content => partTexts content.parts ++ eventTexts rest

/-!
### Loop decomposition lemmas
-/

theorem streamParts_eq (ps : List ContentPart) (acc : List String) :
    streamParts ps acc = (partYields ps, acc ++ partTexts ps) := by
  induction ps generalizing acc with
  | nil => simp [streamParts, partYields, partTexts]
  | cons part rest ih =>
      cases hfc : part.function_call with
      | some fn_call => simp [streamParts, partYields, partTexts, hfc, ih]
      | none =>
          cases hfr : part.function_response with
          | some fn_response => simp [streamParts, partYields, partTexts, hfc, hfr, ih]
          | none =>
              cases ht : part.text with
              | some t =>
                  by_cases h0 : t = "" <;>
                    simp [streamParts, partYields, partTexts, hfc, hfr, ht, h0, ih]
              | none => simp [streamParts, partYields, partTexts, hfc, hfr, ht, ih]

theorem streamEvents_eq (evs : List Event) (acc : List String) :
    streamEvents evs acc = (eventYields evs, acc ++ eventTexts evs) := by
  induction evs generalizing acc with
  | nil => simp [streamEvents, eventYields, eventTexts]
  | cons event rest ih =>
      cases hc : event.content with
      | none => simp [streamEvents, eventYields, eventTexts, hc, ih]
      | some content =>
          simp [streamEvents, eventYields, eventTexts, hc, ih, streamParts_eq]

theorem stream_agent_response_eq (evs : List Event) :
    stream_agent_response evs =
      if (eventTexts evs).isEmpty then eventYields evs
      else eventYields evs ++ [⟨"final_text", String.join (eventTexts evs)⟩] := by
  unfold stream_agent_response
  rw [streamEvents_eq]
  simp

theorem eventYields_append (a b : List Event) :
    eventYields (a ++ b) = eventYields a ++ eventYields b := by
  induction a with
  | nil => simp [eventYields]
  | cons event rest ih =>
      cases hc : event.content with
      | none => simp [eventYields, hc, ih]
      | some content => simp [eventYields, hc, ih]

theorem eventTexts_append (a b : List Event) :
    eventTexts (a ++ b) = eventTexts a ++ eventTexts b := by
  induction a with
  | nil => simp [eventTexts]
  | cons event rest ih =>
      cases hc : event.content with
      | none => simp [eventTexts, hc, ih]
      | some content => simp [eventTexts, hc, ih]

theorem partYields_types (ps : List ContentPart) :
    ∀ it ∈ partYields ps, it.type = "tool_call" ∨ it.type = "tool_response" := by
  induction ps with
  | nil => simp [partYields]
  | cons part rest ih =>
      cases hfc : part.function_call with
      | some fn_call =>
          simp only [partYields, hfc, List.mem_cons]
          rintro it (rfl | hmem)
          · exact Or.inl rfl
          · exact ih it hmem
      | none =>
          cases hfr : part.function_response with
          | some fn_response =>
              simp only [partYields, hfc, hfr, List.mem_cons]
              rintro it (rfl | hmem)
              · exact Or.inr rfl
              · exact ih it hmem
          | none => simpa [partYields, hfc, hfr] using ih

theorem eventYields_types (evs : List Event) :
    ∀ it ∈ eventYields evs, it.type = "tool_call" ∨ it.type = "tool_response" := by
  induction evs with
  | nil => simp [eventYields]
  | cons event rest ih =>
      cases hc : event.content with
      | none => simpa [eventYields, hc] using ih
      | some content =>
          simp only [eventYields, hc, List.mem_append]
          rintro it (hmem | hmem)
          · exact partYields_types content.parts it hmem
          · exact ih it hmem

theorem partTexts_ne_empty (ps : List ContentPart) :
    ∀ t ∈ partTexts ps, t ≠ "" := by
  induction ps with
  | nil => simp [partTexts]
  | cons part rest ih =>
      cases hfc : part.function_call with
      | some fn_call => simpa [partTexts, hfc] using ih
      | none =>
          cases hfr : part.function_response with
          | some fn_response => simpa [partTexts, hfc, hfr] using ih
          | none =>
              cases ht : part.text with
              | some t =>
                  by_cases h0 : t = ""
                  · simpa [partTexts, hfc, hfr, ht, h0] using ih
                  · simp only [partTexts, hfc, hfr, ht, h0, if_false, List.mem_cons]
                    rintro u (rfl | hmem)
                    · exact h0
                    · exact ih u hmem
              | none => simpa [partTexts, hfc, hfr, ht] using ih

theorem eventTexts_ne_empty (evs : List Event) :
    ∀ t ∈ eventTexts evs, t ≠ "" := by
  induction evs with
  | nil => simp [eventTexts]
  | cons event rest ih =>
      cases hc : event.content with
      | none => simpa [eventTexts, hc] using ih
      | some content =>
          simp only [eventTexts, hc, List.mem_append]
          rintro t (hmem | hmem)
          · exact partTexts_ne_empty content.parts t hmem
          · exact ih t hmem

-- `String.join` of a list with a non-empty member is non-empty.
theorem join_ne_empty_of_mem {l : List String} {t : String} (hmem : t ∈ l)
    (hne : t ≠ "") : String.join l ≠ "" := by
  intro he
  apply hne
  rw [String.join_eq] at he
  have hd : (l.map String.data).flatten = [] := congrArg String.data he
  have := List.flatten_eq_nil_iff.mp hd (t.data) (List.mem_map_of_mem _ hmem)
  exact String.ext this

-- Folding `handle_turn_step` over tool items appends their contents.
theorem foldl_step_tools (items : List StreamEvent)
    (h : ∀ it ∈ items, it.type = "tool_call" ∨ it.type = "tool_response")
    (ta : List String) (fr : String) :
    items.foldl handle_turn_step (ta, fr) = (ta ++ items.map StreamEvent.content, fr) := by
  induction items generalizing ta with
  | nil => simp
  | cons it rest ih =>
      have hty := h it (by simp)
      have hstep : handle_turn_step (ta, fr) it = (ta ++ [it.content], fr) := by
        rcases hty with hty | hty <;> simp [handle_turn_step, hty]
      rw [List.foldl_cons, hstep, ih (fun u hu => h u (by simp [hu]))]
      simp

theorem handle_turn_eq (evs : List Event) :
    handle_turn evs =
      ⟨(eventYields evs).map StreamEvent.content,
        if (eventTexts evs).isEmpty then fallback_notice
        else String.join (eventTexts evs)⟩ := by
  unfold handle_turn
  rw [stream_agent_response_eq]
  cases hte : (eventTexts evs).isEmpty with
  | true =>
      rw [if_pos rfl, if_pos rfl]
      rw [foldl_step_tools _ (eventYields_types evs)]
      simp
  | false =>
      rw [if_neg Bool.false_ne_true, if_neg Bool.false_ne_true]
      rw [List.foldl_append, foldl_step_tools _ (eventYields_types evs)]
      have hne : String.join (eventTexts evs) ≠ "" := by
        rcases List.isEmpty_eq_false_iff_exists_mem.mp hte with ⟨t, hmem⟩
        exact join_ne_empty_of_mem hmem (eventTexts_ne_empty evs t hmem)
      simp [handle_turn_step, hne]

/-!
### Spec-sequence bridge lemmas
-/

-- `String.join` distributes over cons.
theorem join_cons_eq (s : String) (l : List String) :
    String.join (s :: l) = s ++ String.join l := by
  apply String.ext
  simp [String.join_eq, String.data_append]

-- Prepending the empty string does not change a join.
theorem join_empty_cons (l : List String) :
    String.join ("" :: l) = String.join l := by
  apply String.ext
  simp [String.join_eq]

-- The tool-activity contents the code produces for a spec sequence are
-- exactly one formatted entry per ToolCall/ToolResponse, in order.
theorem tool_contents_of_spec (ses : List SpecEvent) :
    (eventYields (eventsOf ses)).map StreamEvent.content = ses.filterMap specToolEntry := by
  induction ses with
  | nil => rfl
  | cons se rest ih =>
      cases se with
      | toolCall name args =>
          simpa [eventsOf, SpecEvent.toEvent, eventYields, partYields, specToolEntry] using ih
      | toolResponse name parse literal =>
          simpa [eventsOf, SpecEvent.toEvent, eventYields, partYields, specToolEntry] using ih
      | textChunk t =>
          simpa [eventsOf, SpecEvent.toEvent, eventYields, partYields, specToolEntry] using ih

-- The accumulated text of a spec sequence joins to the concatenation of all
-- its TextChunk texts (empty chunks are skipped by the code but contribute
-- nothing to the concatenation).
theorem join_texts_of_spec (ses : List SpecEvent) :
    String.join (eventTexts (eventsOf ses)) = String.join (specTexts ses) := by
  induction ses with
  | nil => rfl
  | cons se rest ih =>
      cases se with
      | toolCall name args =>
          simpa [eventsOf, SpecEvent.toEvent, eventTexts, partTexts, specTexts] using ih
      | toolResponse name parse literal =>
          simpa [eventsOf, SpecEvent.toEvent, eventTexts, partTexts, specTexts] using ih
      | textChunk t =>
          by_cases h0 : t = ""
          · subst h0
            have hs : specTexts (SpecEvent.textChunk "" :: rest) = "" :: specTexts rest := by
              simp [specTexts]
            rw [hs, join_empty_cons]
            simpa [eventsOf, SpecEvent.toEvent, eventTexts, partTexts] using ih
          · have hs : specTexts (SpecEvent.textChunk t :: rest) = t :: specTexts rest := by
              simp [specTexts]
            have he : eventTexts (eventsOf (SpecEvent.textChunk t :: rest)) =
                t :: eventTexts (eventsOf rest) := by
              simp [eventsOf, SpecEvent.toEvent, eventTexts, partTexts, h0]
            rw [hs, he, join_cons_eq, join_cons_eq, ih]

-- The code accumulates no text exactly when every TextChunk of the spec
-- sequence carries the empty string.
theorem eventTexts_nil_iff_spec (ses : List SpecEvent) :
    eventTexts (eventsOf ses) = [] ↔ ∀ t ∈ specTexts ses, t = "" := by
  induction ses with
  | nil => simp [eventsOf, eventTexts, specTexts]
  | cons se rest ih =>
      cases se with
      | toolCall name args =>
          simpa [eventsOf, SpecEvent.toEvent, eventTexts, partTexts, specTexts] using ih
      | toolResponse name parse literal =>
          simpa [eventsOf, SpecEvent.toEvent, eventTexts, partTexts, specTexts] using ih
      | textChunk t =>
          by_cases h0 : t = ""
          · subst h0
            simpa [eventsOf, SpecEvent.toEvent, eventTexts, partTexts, specTexts] using ih
          · constructor
            · intro he
              exfalso
              have : eventTexts (eventsOf (SpecEvent.textChunk t :: rest)) =
                  t :: eventTexts (eventsOf rest) := by
                simp [eventsOf, SpecEvent.toEvent, eventTexts, partTexts, h0]
              rw [this] at he
              exact List.cons_ne_nil _ _ he
            · intro hall
              exact absurd (hall t (by simp [specTexts])) h0

-- One formatted entry per tool event: the length of the rendered activity.
theorem specToolEntry_length (ses : List SpecEvent) :
    (ses.filterMap specToolEntry).length =
      ses.countP SpecEvent.isToolCall + ses.countP SpecEvent.isToolResponse := by
  induction ses with
  | nil => rfl
  | cons se rest ih =>
      cases se with
      | toolCall name args =>
          simp [List.filterMap_cons, specToolEntry, List.countP_cons,
            SpecEvent.isToolCall, SpecEvent.isToolResponse, ih]
          omega
      | toolResponse name parse literal =>
          simp [List.filterMap_cons, specToolEntry, List.countP_cons,
            SpecEvent.isToolCall, SpecEvent.isToolResponse, ih]
          omega
      | textChunk t =>
          simp [List.filterMap_cons, specToolEntry, List.countP_cons,
            SpecEvent.isToolCall, SpecEvent.isToolResponse, ih]

-- `buildListLines` is one bullet line per item.
theorem buildListLines_eq_map (items : List Json) :
    buildListLines items = items.map (fun item => "- " ++ itemSummary item) := by
  induction items with
  | nil => rfl
  | cons item rest ih => simp [buildListLines, ih]

/-!
### Claim theorems
-/

/-- C1, amended.  For every Event sequence containing at least one TextChunk
with non-empty text, the turn's `final_text` equals the concatenation of all
TextChunk texts in arrival order; for every Event sequence containing no
TextChunk with non-empty text, `final_text` equals the fixed fallback notice
rather than being blank. -/
theorem c1_final_text_of_turn (ses : List SpecEvent) :
    ((∃ t ∈ specTexts ses, t ≠ "") →
      (handle_turn (eventsOf ses)).final_text = String.join (specTexts ses))
  ∧ ((∀ t ∈ specTexts ses, t = "") →
      (handle_turn (eventsOf ses)).final_text = fallback_notice) := by
  rw [handle_turn_eq]
  constructor
  · rintro ⟨t, hmem, hne⟩
    have hnil : eventTexts (eventsOf ses) ≠ [] := by
      intro h
      exact hne ((eventTexts_nil_iff_spec ses).mp h t hmem)
    have hie : (eventTexts (eventsOf ses)).isEmpty = false := by
      simpa [List.isEmpty_iff] using hnil
    simp [hie, join_texts_of_spec]
  · intro hall
    have hnil : eventTexts (eventsOf ses) = [] := (eventTexts_nil_iff_spec ses).mpr hall
    simp [hnil]

/-- C1 witness: a concrete sequence with one non-empty TextChunk, whose
final text is the concatenation of its TextChunk texts. -/
theorem c1_witness :
    (∃ t ∈ specTexts [SpecEvent.textChunk "Hello"], t ≠ "") ∧
    (handle_turn (eventsOf [SpecEvent.textChunk "Hello"])).final_text =
      String.join (specTexts [SpecEvent.textChunk "Hello"]) :=
  ⟨by decide, (c1_final_text_of_turn [SpecEvent.textChunk "Hello"]).1 (by decide)⟩

/-- C1 counterexample to the claim as frozen: the sequence holding exactly
one TextChunk whose text is the empty string contains a TextChunk, yet its
final text is the fallback notice, not the (empty) concatenation of the
TextChunk texts. -/
theorem c1_counterexample :
    specTexts [SpecEvent.textChunk ""] = [""] ∧
    (handle_turn (eventsOf [SpecEvent.textChunk ""])).final_text = fallback_notice ∧
    fallback_notice ≠ String.join (specTexts [SpecEvent.textChunk ""]) := by
  refine ⟨rfl, ?_, by decide⟩
  rfl

/-- C5: for every Event sequence, `tool_activity` holds exactly one
formatted entry per ToolCall or ToolResponse event, in original arrival
order, and its length is the count of ToolCall events plus ToolResponse
events. -/
theorem c5_tool_activity_complete (ses : List SpecEvent) :
    (handle_turn (eventsOf ses)).tool_activity = ses.filterMap specToolEntry
  ∧ (handle_turn (eventsOf ses)).tool_activity.length =
      ses.countP SpecEvent.isToolCall + ses.countP SpecEvent.isToolResponse := by
  have h1 : (handle_turn (eventsOf ses)).tool_activity = ses.filterMap specToolEntry := by
    rw [handle_turn_eq]
    exact tool_contents_of_spec ses
  exact ⟨h1, by rw [h1, specToolEntry_length]⟩

/-- C8: rendering is a deterministic function of the event sequence alone —
rendering the same Event sequence twice yields identical RenderedActivity
and an identical yielded stream. -/
theorem c8_render_deterministic (evs₁ evs₂ : List Event) (h : evs₁ = evs₂) :
    handle_turn evs₁ = handle_turn evs₂ ∧
    stream_agent_response evs₁ = stream_agent_response evs₂ := by
  subst h
  exact ⟨rfl, rfl⟩

/-- C8 witness: determinism at a concrete event sequence. -/
theorem c8_witness :
    handle_turn (eventsOf [SpecEvent.textChunk "hi"]) =
      handle_turn (eventsOf [SpecEvent.textChunk "hi"]) ∧
    stream_agent_response (eventsOf [SpecEvent.textChunk "hi"]) =
      stream_agent_response (eventsOf [SpecEvent.textChunk "hi"]) :=
  c8_render_deterministic _ _ rfl

/-- C2: for every ToolResponse whose payload parses as a non-empty list, the
bullet-rendering path is chosen and produces exactly one bullet per record;
a record-shaped item is rendered by joining its truthy fields as
`field: value` pairs separated by commas, and a non-record item is rendered
in its plain textual form. -/
theorem c2_bullet_rendering (name literal : String) (x : Json) (xs : List Json) :
    renderResponseStr ⟨name, some (Json.arr (x :: xs)), literal⟩ =
      String.intercalate "\n" ((x :: xs).map (fun item => "- " ++ itemSummary item))
  ∧ (buildListLines (x :: xs)).length = (x :: xs).length
  ∧ (∀ fields : List (String × Json),
      itemSummary (Json.obj fields) =
        String.intercalate ", "
          ((fields.filter (fun kv => kv.2.truthy)).map
            (fun kv => "`" ++ kv.1 ++ "`: " ++ pyStr kv.2)))
  ∧ (∀ item : Json, item.isObj = false → itemSummary item = pyStr item) := by
  refine ⟨?_, ?_, fun fields => rfl, ?_⟩
  · have hb : renderResponseStr ⟨name, some (Json.arr (x :: xs)), literal⟩ =
        String.intercalate "\n" (buildListLines (x :: xs)) := rfl
    rw [hb, buildListLines_eq_map]
  · rw [buildListLines_eq_map, List.length_map]
  · intro item h
    cases item <;> first | rfl | simp [Json.isObj] at h

/-- C2 witness: the bullet path at a concrete one-record payload, and the
plain-text rendering of a concrete non-record item. -/
theorem c2_witness :
    renderResponseStr ⟨"incident_list",
        some (Json.arr [Json.obj [("number", Json.str "INC001"),
          ("short_description", Json.str "disk full")]]), "x"⟩ =
      String.intercalate "\n"
        (([Json.obj [("number", Json.str "INC001"),
          ("short_description", Json.str "disk full")]]).map
            (fun item => "- " ++ itemSummary item))
  ∧ Json.isObj (Json.num 3) = false
  ∧ itemSummary (Json.num 3) = pyStr (Json.num 3) :=
  ⟨(c2_bullet_rendering "incident_list" "x"
      (Json.obj [("number", Json.str "INC001"),
        ("short_description", Json.str "disk full")]) []).1,
    rfl,
    (c2_bullet_rendering "incident_list" "x" (Json.num 3) []).2.2.2 (Json.num 3) rfl⟩

/-- C3: for every ToolResponse whose payload parses as structured data that
is not a non-empty list (an object, an empty list, or a scalar), the generic
fenced `json.dumps` block is rendered, never the bullet path; in particular
an empty list renders as the generic block `[]`. -/
theorem c3_generic_data_block (name literal : String) (j : Json)
    (h : j.isNonemptyList = false) :
    renderResponseStr ⟨name, some j, literal⟩ = "```json\n" ++ dumps j ++ "\n```"
  ∧ renderResponseStr ⟨name, some (Json.arr []), literal⟩ = "```json\n[]\n```" := by
  refine ⟨?_, rfl⟩
  cases j with
  | arr elems =>
      cases elems with
      | nil => rfl
      | cons x xs => simp [Json.isNonemptyList] at h
  | null => rfl
  | bool b => rfl
  | num n => rfl
  | str s => rfl
  | obj fields => rfl

/-- C3 witness: the generic path at the empty-list payload, the regression
edge of the claim. -/
theorem c3_witness :
    renderResponseStr ⟨"x", some (Json.arr []), "lit"⟩ =
      "```json\n" ++ dumps (Json.arr []) ++ "\n```"
  ∧ renderResponseStr ⟨"x", some (Json.arr []), "lit"⟩ = "```json\n[]\n```" :=
  c3_generic_data_block "x" "lit" (Json.arr []) rfl

/-- C4: for every ToolResponse whose payload does not parse as structured
data, the literal textual form of the payload is rendered unmodified, the
yielded entry wraps exactly that literal, and the turn still completes with
that entry in its tool activity instead of failing (the embedding of the
event loop is a total function, so no payload shape can abort it). -/
theorem c4_unparsable_literal (name literal : String) :
    renderResponseStr ⟨name, none, literal⟩ = literal
  ∧ toolResponseContent ⟨name, none, literal⟩ =
      "<div class='tool-card'><div class='title'>📩 Tool Response from <code>" ++
        name ++ "</code></div>" ++ literal ++ "</div>"
  ∧ (handle_turn (eventsOf [SpecEvent.toolResponse name none literal])).tool_activity =
      [toolResponseContent ⟨name, none, literal⟩] := by
  refine ⟨rfl, rfl, ?_⟩
  rw [handle_turn_eq]
  simp [eventsOf, SpecEvent.toEvent, eventYields, partYields]

/-- C9: in the bullet-rendering path, a record field whose value is falsy —
the empty string, but also 0, False, None, the empty list and the empty
dict — is omitted from the rendered summary. -/
theorem c9_falsy_fields_omitted (fs₁ fs₂ : List (String × Json)) (k : String)
    (v : Json) (h : v.truthy = false) :
    itemSummary (Json.obj (fs₁ ++ (k, v) :: fs₂)) = itemSummary (Json.obj (fs₁ ++ fs₂))
  ∧ Json.truthy (Json.num 0) = false
  ∧ Json.truthy (Json.bool false) = false
  ∧ Json.truthy Json.null = false
  ∧ Json.truthy (Json.str "") = false
  ∧ Json.truthy (Json.arr []) = false
  ∧ Json.truthy (Json.obj []) = false := by
  refine ⟨?_, by decide, rfl, rfl, by decide, rfl, rfl⟩
  simp [itemSummary, List.filter_append, List.filter_cons, h]

/-- C9 witness: the field carrying the number 0 disappears from a concrete
record's bullet summary. -/
theorem c9_witness :
    itemSummary (Json.obj ([("number", Json.str "INC001")] ++ ("count", Json.num 0) :: [])) =
      itemSummary (Json.obj ([("number", Json.str "INC001")] ++ []))
  ∧ Json.truthy (Json.num 0) = false
  ∧ Json.truthy (Json.bool false) = false
  ∧ Json.truthy Json.null = false
  ∧ Json.truthy (Json.str "") = false
  ∧ Json.truthy (Json.arr []) = false
  ∧ Json.truthy (Json.obj []) = false :=
  c9_falsy_fields_omitted [("number", Json.str "INC001")] [] "count" (Json.num 0) (by decide)

/-- C10: classification probes `function_call`, then `function_response`,
then `text`, so a part carrying several shapes is rendered only under the
highest-priority one; a part with none of the three truthy shapes, a
TextChunk whose text is empty, and an event without content contribute
nothing to the output wherever they stand in the sequence. -/
theorem c10_probe_priority (fn_call : FnCall) (fn_response : FnResponse)
    (other_fr : Option FnResponse) (t : Option String) (evs₁ evs₂ : List Event) :
    stream_agent_response [⟨some ⟨[⟨some fn_call, other_fr, t⟩]⟩⟩] =
      [⟨"tool_call", toolCallContent fn_call⟩]
  ∧ stream_agent_response [⟨some ⟨[⟨none, some fn_response, t⟩]⟩⟩] =
      [⟨"tool_response", toolResponseContent fn_response⟩]
  ∧ stream_agent_response (evs₁ ++ [⟨some ⟨[⟨none, none, some ""⟩]⟩⟩] ++ evs₂) =
      stream_agent_response (evs₁ ++ evs₂)
  ∧ stream_agent_response (evs₁ ++ [⟨some ⟨[⟨none, none, none⟩]⟩⟩] ++ evs₂) =
      stream_agent_response (evs₁ ++ evs₂)
  ∧ stream_agent_response (evs₁ ++ [⟨none⟩] ++ evs₂) =
      stream_agent_response (evs₁ ++ evs₂) := by
  refine ⟨?_, ?_, ?_, ?_, ?_⟩
  · simp [stream_agent_response_eq, eventYields, eventTexts, partYields, partTexts]
  · simp [stream_agent_response_eq, eventYields, eventTexts, partYields, partTexts]
  · rw [stream_agent_response_eq, stream_agent_response_eq,
      eventYields_append, eventYields_append, eventYields_append,
      eventTexts_append, eventTexts_append, eventTexts_append]
    simp [eventYields, eventTexts, partYields, partTexts]
  · rw [stream_agent_response_eq, stream_agent_response_eq,
      eventYields_append, eventYields_append, eventYields_append,
      eventTexts_append, eventTexts_append, eventTexts_append]
    simp [eventYields, eventTexts, partYields, partTexts]
  · rw [stream_agent_response_eq, stream_agent_response_eq,
      eventYields_append, eventYields_append, eventYields_append,
      eventTexts_append, eventTexts_append, eventTexts_append]
    simp [eventYields, eventTexts, partYields, partTexts]

/-- C6: when the external runner fails before or during event emission, the
failure is surfaced to the caller as a single condition carrying the
original message and nothing is retried: the deployable wrapper returns
exactly the error dict with that message and no response text, and the CLI
loop prints exactly one error line carrying the message for the failing
turn, then processes the remaining turns exactly as it otherwise would —
earlier turns' output is untouched and the session stays usable. -/
theorem c6_runner_failure_surfaced (msg text raw : String)
    (rest : List (String × TurnOutcome))
    (htext : text ≠ "")
    (hquit : (["quit", "exit", "q"].contains (pyLower (pyStrip raw))) = false)
    (hraw : pyStrip raw ≠ "") :
    DeployableADKAgent.query (TurnOutcome.failure msg) text = QueryResult.error msg
  ∧ start_interactive_chat ((raw, TurnOutcome.failure msg) :: rest) =
      ("\nAn error occurred: " ++ msg) :: start_interactive_chat rest := by
  constructor
  · simp [DeployableADKAgent.query, htext]
  · have hq : ¬(["quit", "exit", "q"].contains (pyLower (pyStrip raw)) = true) := by
      rw [hquit]
      exact Bool.false_ne_true
    simp only [start_interactive_chat]
    rw [if_neg hq, if_neg hraw]

/-- C6 witness: a concrete failing turn, surfaced through the wrapper and
through the CLI loop, with a following turn still processed. -/
theorem c6_witness :
    DeployableADKAgent.query (TurnOutcome.failure "transport closed") "list incidents" =
      QueryResult.error "transport closed"
  ∧ start_interactive_chat
      (("list incidents", TurnOutcome.failure "transport closed") ::
        [("hello", TurnOutcome.ok [])]) =
      ("\nAn error occurred: " ++ "transport closed") ::
        start_interactive_chat [("hello", TurnOutcome.ok [])] :=
  c6_runner_failure_surfaced "transport closed" "list incidents" "list incidents"
    [("hello", TurnOutcome.ok [])] (by decide) (by decide) (by decide)

/-- C7, amended.  A query that is empty after trimming whitespace issues no
turn in the CLI loop — the input is skipped outright; the deployable
wrapper, however, rejects with an error result only the exactly-empty query
string, and passes a whitespace-only query through to the runner. -/
theorem c7_empty_query_handling (raw : String) (outcome : TurnOutcome)
    (rest : List (String × TurnOutcome)) (h : pyStrip raw = "") :
    start_interactive_chat ((raw, outcome) :: rest) = start_interactive_chat rest
  ∧ DeployableADKAgent.query outcome "" =
      QueryResult.error "Input 'text' cannot be empty." := by
  constructor
  · have hq : ¬(["quit", "exit", "q"].contains (pyLower (pyStrip raw)) = true) := by
      rw [h]
      decide
    simp only [start_interactive_chat]
    rw [if_neg hq, if_pos h]
  · rfl

/-- C7 witness: a whitespace-only console input is skipped by the CLI loop,
and the empty query is rejected by the wrapper. -/
theorem c7_witness :
    start_interactive_chat (("   ", TurnOutcome.ok []) :: []) = start_interactive_chat []
  ∧ DeployableADKAgent.query (TurnOutcome.ok []) "" =
      QueryResult.error "Input 'text' cannot be empty." :=
  c7_empty_query_handling "   " (TurnOutcome.ok []) [] (by decide)

/-- C7 counterexample to the claim as frozen: the whitespace-only query
`" "` is empty after trimming, yet the deployable wrapper does not return
its empty-input error result — it issues the turn to the runner and returns
the runner's text. -/
theorem c7_counterexample :
    pyStrip " " = ""
  ∧ DeployableADKAgent.query (TurnOutcome.ok (eventsOf [SpecEvent.textChunk "hi"])) " " =
      QueryResult.response "hi"
  ∧ DeployableADKAgent.query (TurnOutcome.ok (eventsOf [SpecEvent.textChunk "hi"])) " " ≠
      QueryResult.error "Input 'text' cannot be empty." := by
  refine ⟨by decide, rfl, by decide⟩
